import Mathlib

/-!
Shallow embedding of the drive-clone backend (Express + SQLite + S3) and the
client-side section filter, translated from `frontend/src/main.tsx`.

The metadata store is the `files` table (rows in insertion/rowid order), the
blob store is the set of S3 keys present, and `nextId` is the AUTOINCREMENT
counter.  Blob-store calls can fail; each request that performs one takes a
boolean telling whether that external call succeeds.
-/

namespace DriveClone

/-- A row of the `files` table (see `createTable` in the source):
`id INTEGER PRIMARY KEY AUTOINCREMENT, name, size, content_type,
s3_key UNIQUE, starred, trashed, created_at`.  `created_at` is modelled as a
numeric timestamp. -/
structure FileRecord where
  id : Nat
  name : String
  size : Nat
  content_type : String
  s3_key : String
  starred : Bool
  trashed : Bool
  created_at : Nat
deriving Repr, DecidableEq

/-- Server state: the `files` table rows (in rowid order), the AUTOINCREMENT
counter, and the set of keys currently present in the S3 bucket. -/
structure ServerState where
  files : List FileRecord
  nextId : Nat
  blobs : List String
deriving Repr, DecidableEq

/-- `ORDER BY created_at DESC`: `a` may come before `b` iff
`b.created_at ≤ a.created_at`. -/
def createdDesc (a b : FileRecord) : Prop := b.created_at ≤ a.created_at

instance : DecidableRel createdDesc := fun a b => Nat.decLe b.created_at a.created_at

instance : IsTotal FileRecord createdDesc :=
  ⟨fun a b => Nat.le_total b.created_at a.created_at⟩

instance : IsTrans FileRecord createdDesc :=
  ⟨fun _ _ _ h1 h2 => Nat.le_trans h2 h1⟩

/-- The scan order of `SELECT * FROM files ORDER BY created_at DESC`
(a deterministic stable sort by `created_at`, newest first). -/
def sortByCreatedAtDesc (files : List FileRecord) : List FileRecord :=
  List.insertionSort createdDesc files

/-- SQLite `LIMIT ?`: a negative limit means no upper bound. -/
def sqlTake (lim : Int) (l : List FileRecord) : List FileRecord :=
  if lim < 0 then l else l.take lim.toNat

/-- SQLite `OFFSET ?`: a negative offset behaves like zero
(`Int.toNat` maps negatives to `0`). -/
def sqlDrop (off : Int) (l : List FileRecord) : List FileRecord :=
  l.drop off.toNat

/-- The prepared statement `selectFiles`:
`SELECT * FROM files ORDER BY created_at DESC LIMIT ? OFFSET ?`. -/
def selectFiles (files : List FileRecord) (limit offset : Int) : List FileRecord :=
  sqlTake limit (sqlDrop offset (sortByCreatedAtDesc files))

/-- JS `Math.ceil(a / b)` for a nonnegative numerator `a` and integer `b`
(the code divides the row count by the effective limit).  For `b > 0` this is
ceiling division; for `b < 0` the real quotient is nonpositive and its ceiling
is minus the floor of `a / (-b)`. -/
def jsCeilDiv (a : Nat) (b : Int) : Int :=
  if 0 < b then ((a + b.toNat - 1) / b.toNat : Nat)
  else -((a / (-b).toNat : Nat) : Int)

/-- `parseInt(req.query.page) || 1`: `none` stands for an absent or
non-numeric parameter (`parseInt` gives `NaN`), and `0` is falsy. -/
def effPage (q : Option Int) : Int :=
  match q with
  | none => 1
  | some n => if n = 0 then 1 else n

/-- `Math.min(parseInt(req.query.limit) || 20, 100)`. -/
def effLimit (q : Option Int) : Int :=
  match q with
  | none => 20
  | some n => if n = 0 then 20 else min n 100

/-- The `pagination` object of the list response. -/
structure Pagination where
  currentPage : Int
  totalItems : Nat
  totalPages : Int
  itemsPerPage : Int
  hasNext : Bool
  hasPrev : Bool
deriving Repr, DecidableEq

/-- The body of a `GET /api/files` response. -/
structure ListResponse where
  files : List FileRecord
  pagination : Pagination
deriving Repr, DecidableEq

/-- Handler of `GET /api/files` (lines 762-777 of the source). -/
def apiListFiles (st : ServerState) (pageQ limitQ : Option Int) : ListResponse :=
  let page := effPage pageQ
  let limit := effLimit limitQ
  let offset := (page - 1) * limit
  let fs := selectFiles st.files limit offset
  let totalCount := st.files.length
  let totalPages := jsCeilDiv totalCount limit
  { files := fs
    pagination :=
      { currentPage := page
        totalItems := totalCount
        totalPages := totalPages
        itemsPerPage := limit
        hasNext := decide (page < totalPages)
        hasPrev := decide (1 < page) } }

/-- Leading decimal digits of a character list. -/
def jsDigits (cs : List Char) : List Char := cs.takeWhile (fun c => c.isDigit)

/-- Numeric value of a decimal digit string. -/
def digitsVal (cs : List Char) : Nat := cs.foldl (fun a c => a * 10 + (c.toNat - 48)) 0

/-- Hexadecimal digit, as accepted by `parseInt` after a `0x` prefix. -/
def isHexDigitJs (c : Char) : Bool :=
  c.isDigit || ('a' ≤ c && c ≤ 'f') || ('A' ≤ c && c ≤ 'F')

/-- Value of one hexadecimal digit. -/
def hexDigitVal (c : Char) : Nat :=
  if c.isDigit then c.toNat - 48
  else if 'a' ≤ c && c ≤ 'f' then c.toNat - 87
  else c.toNat - 55

/-- Numeric value of a hexadecimal digit string. -/
def hexVal (cs : List Char) : Nat := cs.foldl (fun a c => a * 16 + hexDigitVal c) 0

/-- Magnitude part of `parseInt` called with no radix: a `0x`/`0X` prefix
switches to hexadecimal (ES `StringToNumber` step for radix 16), otherwise
the longest run of decimal digits is taken; `none` when no digit follows. -/
def parseUnsignedJs (cs : List Char) : Option Nat :=
  match cs with
  | '0' :: 'x' :: rest =>
      if (rest.takeWhile isHexDigitJs).isEmpty then none
      else some (hexVal (rest.takeWhile isHexDigitJs))
  | '0' :: 'X' :: rest =>
      if (rest.takeWhile isHexDigitJs).isEmpty then none
      else some (hexVal (rest.takeWhile isHexDigitJs))
  | rest =>
      if (jsDigits rest).isEmpty then none else some (digitsVal (jsDigits rest))

/-- JS `parseInt(s)` with no radix argument, as the handlers call it: skip
leading whitespace, optional sign, then either a hexadecimal `0x`-prefixed
literal or leading decimal digits; `none` models `NaN`. -/
def parseIntJs (s : String) : Option Int :=
  let cs := s.toList.dropWhile (fun c => c == ' ' || c == '\t' || c == '\n' || c == '\r')
  match cs with
  | '-' :: rest => (parseUnsignedJs rest).map (fun n => -(n : Int))
  | '+' :: rest => (parseUnsignedJs rest).map (fun n => (n : Int))
  | rest => (parseUnsignedJs rest).map (fun n => (n : Int))

/-- The prepared statement `getFileById` (`SELECT * FROM files WHERE id = ?`,
first row) applied to a parsed id.  Binding `NaN` compares like `NULL` and
matches no row, hence the `none` case. -/
def getFileById (st : ServerState) (fid : Option Int) : Option FileRecord :=
  match fid with
  | none => none
  | some i => st.files.find? (fun f => ((f.id : Int) == i))

/-- The generated storage key: `` `files/${Date.now()}-${originalname}` ``. -/
def s3KeyFor (now : Nat) (originalname : String) : String :=
  "files/" ++ toString now ++ "-" ++ originalname

/-- `PutObject`: S3 overwrites silently, so the key set gains the key. -/
def putBlob (blobs : List String) (key : String) : List String :=
  if blobs.contains key then blobs else key :: blobs

/-- HTTP outcome of a request, as far as the claims observe it. -/
inductive Resp where
  | ok200 : Resp
  | created : FileRecord → Resp
  | okUrl : String → Resp
  | notFound : Resp
  | serverError : Resp
deriving Repr, DecidableEq

/-- Handler of `POST /api/files` (lines 780-815): write the blob under the
generated key, then run `insertFile`; `s3ok` tells whether the S3 `send`
succeeds.  A duplicate `s3_key` violates the table's UNIQUE constraint, so
the insert throws and the catch answers 500 with no row added. -/
def apiUpload (st : ServerState) (now : Nat) (originalname mimetype : String)
    (size : Nat) (s3ok : Bool) : Resp × ServerState :=
  if s3ok then
    if st.files.any (fun f => f.s3_key == s3KeyFor now originalname) then
      (.serverError, { st with blobs := putBlob st.blobs (s3KeyFor now originalname) })
    else
      (.created
          { id := st.nextId, name := originalname, size := size,
            content_type := mimetype, s3_key := s3KeyFor now originalname,
            starred := false, trashed := false, created_at := now },
        { st with
          files := st.files ++
            [{ id := st.nextId, name := originalname, size := size,
               content_type := mimetype, s3_key := s3KeyFor now originalname,
               starred := false, trashed := false, created_at := now }],
          nextId := st.nextId + 1,
          blobs := putBlob st.blobs (s3KeyFor now originalname) })
  else
    (.serverError, st)

/-- The signed URL issued for a key (opaque to the claims). -/
def signedUrlFor (key : String) : String := "https://s3.signed/" ++ key

/-- Handler of `GET /api/files/:id/download` (lines 818-835); `signOk`
tells whether `getSignedUrl` resolves. -/
def apiDownload (st : ServerState) (idStr : String) (signOk : Bool) : Resp × ServerState :=
  match getFileById st (parseIntJs idStr) with
  | none => (.notFound, st)
  | some file => if signOk then (.okUrl (signedUrlFor file.s3_key), st) else (.serverError, st)

/-- The prepared statement `updateFileStarred`
(`UPDATE files SET starred = ? WHERE id = ?`). -/
def updateFileStarred (files : List FileRecord) (v : Bool) (fid : Option Int) :
    List FileRecord :=
  files.map (fun f => if fid == some (f.id : Int) then { f with starred := v } else f)

/-- The prepared statement `updateFileTrashed`
(`UPDATE files SET trashed = ? WHERE id = ?`). -/
def updateFileTrashed (files : List FileRecord) (v : Bool) (fid : Option Int) :
    List FileRecord :=
  files.map (fun f => if fid == some (f.id : Int) then { f with trashed := v } else f)

/-- Handler of `POST /api/files/:id/star` (lines 838-849). -/
def apiStar (st : ServerState) (idStr : String) : Resp × ServerState :=
  match getFileById st (parseIntJs idStr) with
  | none => (.notFound, st)
  | some _ =>
      (.ok200, { st with files := updateFileStarred st.files true (parseIntJs idStr) })

/-- Handler of `POST /api/files/:id/unstar` (lines 852-863). -/
def apiUnstar (st : ServerState) (idStr : String) : Resp × ServerState :=
  match getFileById st (parseIntJs idStr) with
  | none => (.notFound, st)
  | some _ =>
      (.ok200, { st with files := updateFileStarred st.files false (parseIntJs idStr) })

/-- Handler of `POST /api/files/:id/trash` (lines 866-877). -/
def apiTrash (st : ServerState) (idStr : String) : Resp × ServerState :=
  match getFileById st (parseIntJs idStr) with
  | none => (.notFound, st)
  | some _ =>
      (.ok200, { st with files := updateFileTrashed st.files true (parseIntJs idStr) })

/-- Handler of `POST /api/files/:id/restore` (lines 880-891). -/
def apiRestore (st : ServerState) (idStr : String) : Resp × ServerState :=
  match getFileById st (parseIntJs idStr) with
  | none => (.notFound, st)
  | some _ =>
      (.ok200, { st with files := updateFileTrashed st.files false (parseIntJs idStr) })

/-- Handler of `DELETE /api/files/:id` (lines 894-913): delete the blob
first (`s3ok` tells whether it succeeds); only in its `.then` is
`deleteFile` (`DELETE FROM files WHERE id = ?`) run. -/
def apiDeleteFile (st : ServerState) (idStr : String) (s3ok : Bool) : Resp × ServerState :=
  match getFileById st (parseIntJs idStr) with
  | none => (.notFound, st)
  | some file =>
      if s3ok then
        (.ok200,
          { st with
            blobs := st.blobs.filter (fun k => !(k == file.s3_key)),
            files := st.files.filter (fun f => !(some (f.id : Int) == parseIntJs idStr)) })
      else
        (.serverError, st)

/-- One API request, with the outcomes of its external blob-store calls. -/
inductive Op where
  | list (pageQ limitQ : Option Int)
  | upload (now : Nat) (name mime : String) (size : Nat) (s3ok : Bool)
  | download (idStr : String) (signOk : Bool)
  | star (idStr : String)
  | unstar (idStr : String)
  | trash (idStr : String)
  | restore (idStr : String)
  | purge (idStr : String) (s3ok : Bool)

/-- State after handling one request. -/
def step (st : ServerState) : Op → ServerState
  | .list _ _ => st
  | .upload now name mime size s3ok => (apiUpload st now name mime size s3ok).2
  | .download idStr signOk => (apiDownload st idStr signOk).2
  | .star idStr => (apiStar st idStr).2
  | .unstar idStr => (apiUnstar st idStr).2
  | .trash idStr => (apiTrash st idStr).2
  | .restore idStr => (apiRestore st idStr).2
  | .purge idStr s3ok => (apiDeleteFile st idStr s3ok).2

/-- `sub` occurs as a contiguous run inside `s` (JS `String.includes`). -/
def listIncludes : List Char → List Char → Bool
  | s, sub =>
    match s with
    | [] => sub.isEmpty
    | _ :: rest => sub.isPrefixOf s || listIncludes rest sub

/-- JS `s.includes(sub)`. -/
def strIncludes (s sub : String) : Bool := listIncludes s.toList sub.toList

/-- `file.name.toLowerCase().includes(searchTerm.toLowerCase())`. -/
def matchesSearch (searchTerm : String) (f : FileRecord) : Bool :=
  strIncludes f.name.toLower searchTerm.toLower

/-- The client-side `filteredFiles` computation (lines 281-296): filter the
fetched list by search term and the current sidebar section. -/
def filteredFiles (files : List FileRecord) (searchTerm sect : String) :
    List FileRecord :=
  files.filter (fun file =>
    let ms := matchesSearch searchTerm file
    if sect == "My Drive" then !file.trashed && ms
    else if sect == "Starred" then !file.trashed && file.starred && ms
    else if sect == "Trash" then file.trashed && ms
    else if sect == "Recent" then !file.trashed && ms
    else false)

/-! ## Helper lemmas -/

/-- C1: if the S3 write fails during Upload, the request answers an error
(500) and the server state — in particular the `files` table — is exactly the
original one, so no record for the request appears in any List output. -/
theorem upload_blob_failure_no_row (st : ServerState) (now : Nat)
    (originalname mimetype : String) (size : Nat) :
    apiUpload st now originalname mimetype size false = (.serverError, st) ∧
    ∀ pageQ limitQ,
      apiListFiles (apiUpload st now originalname mimetype size false).2 pageQ limitQ
        = apiListFiles st pageQ limitQ := by
  refine ⟨rfl, ?_⟩
  intro pageQ limitQ
  rfl

/-! ## C2: PurgeForever deletes the blob first -/

/-- C2: on an existing record, if the blob deletion fails the request answers
an error and the state is unchanged (the row is retained); if it succeeds,
the row with that id and the record's blob are removed. -/
theorem purge_blob_first (st : ServerState) (idStr : String) (f : FileRecord)
    (hf : getFileById st (parseIntJs idStr) = some f) :
    apiDeleteFile st idStr false = (.serverError, st) ∧
    (apiDeleteFile st idStr true).1 = .ok200 ∧
    (apiDeleteFile st idStr true).2.files
      = st.files.filter (fun g => !(some ((g.id : Int)) == parseIntJs idStr)) ∧
    (apiDeleteFile st idStr true).2.blobs
      = st.blobs.filter (fun k => !(k == f.s3_key)) ∧
    ∀ g ∈ (apiDeleteFile st idStr true).2.files,
      ¬ parseIntJs idStr = some ((g.id : Int)) := by
  unfold apiDeleteFile
  rw [hf]
  refine ⟨rfl, rfl, rfl, rfl, ?_⟩
  intro g hg
  simp only [if_true, List.mem_filter, Bool.not_eq_eq_eq_not, Bool.not_true,
    beq_eq_false_iff_ne, ne_eq] at hg
  exact fun h => hg.2 h.symm

/-- Witness for C2 at a one-record state. -/
theorem purge_blob_first_witness :
    apiDeleteFile
        { files := [{ id := 1, name := "a", size := 3, content_type := "text/plain",
                      s3_key := "files/5-a", starred := false, trashed := false,
                      created_at := 5 }],
          nextId := 2, blobs := ["files/5-a"] } "1" false
      = (.serverError,
          { files := [{ id := 1, name := "a", size := 3, content_type := "text/plain",
                        s3_key := "files/5-a", starred := false, trashed := false,
                        created_at := 5 }],
            nextId := 2, blobs := ["files/5-a"] }) :=
  (purge_blob_first _ "1"
      { id := 1, name := "a", size := 3, content_type := "text/plain",
        s3_key := "files/5-a", starred := false, trashed := false, created_at := 5 }
      (by decide)).1

/-! ## C9: section filter visibility -/

theorem filteredFiles_myDrive (files : List FileRecord) (term : String) :
    filteredFiles files term "My Drive"
      = files.filter (fun f => !f.trashed && matchesSearch term f) := rfl

theorem filteredFiles_starred (files : List FileRecord) (term : String) :
    filteredFiles files term "Starred"
      = files.filter (fun f => !f.trashed && f.starred && matchesSearch term f) := rfl

theorem filteredFiles_trash (files : List FileRecord) (term : String) :
    filteredFiles files term "Trash"
      = files.filter (fun f => f.trashed && matchesSearch term f) := rfl

theorem filteredFiles_recent (files : List FileRecord) (term : String) :
    filteredFiles files term "Recent"
      = files.filter (fun f => !f.trashed && matchesSearch term f) := rfl

/-- C9: a fetched record is in the "My Drive" filter output iff it is not
trashed (and matches the search), in the "Trash" output iff it is trashed
(and matches); never in both; trashed records are also excluded from
"Recent" and "Starred". -/
theorem section_filter_visibility (files : List FileRecord) (term : String)
    (r : FileRecord) :
    (r ∈ filteredFiles files term "My Drive"
        ↔ r ∈ files ∧ r.trashed = false ∧ matchesSearch term r = true)
  ∧ (r ∈ filteredFiles files term "Trash"
        ↔ r ∈ files ∧ r.trashed = true ∧ matchesSearch term r = true)
  ∧ ¬ (r ∈ filteredFiles files term "My Drive" ∧ r ∈ filteredFiles files term "Trash")
  ∧ (r.trashed = true → r ∉ filteredFiles files term "Recent")
  ∧ (r.trashed = true → r ∉ filteredFiles files term "Starred") := by
  simp only [filteredFiles_myDrive, filteredFiles_starred, filteredFiles_trash,
    filteredFiles_recent, List.mem_filter, Bool.and_eq_true, Bool.not_eq_true']
  refine ⟨by tauto, by tauto, ?_, ?_, ?_⟩
  · rintro ⟨⟨-, h1, -⟩, ⟨-, h2, -⟩⟩
    rw [h1] at h2
    exact Bool.false_ne_true h2
  · rintro ht ⟨-, h1, -⟩
    rw [ht] at h1
    simp at h1
  · rintro ht ⟨-, h1, -⟩
    rw [ht] at h1
    simp at h1

/-! ## C10: malformed or unknown ids answer 404 and change nothing -/

theorem updateFileStarred_idem (files : List FileRecord) (v : Bool) (fid : Option Int) :
    updateFileStarred (updateFileStarred files v fid) v fid
      = updateFileStarred files v fid := by
  unfold updateFileStarred
  rw [List.map_map]
  apply List.map_congr_left
  intro f _
  by_cases h : fid == some ((f.id : Int))
  · simp only [Function.comp_apply, h, if_true]
  · have h' : ¬ fid = some ((f.id : Int)) := by simpa using h
    simp [h']

theorem updateFileTrashed_idem (files : List FileRecord) (v : Bool) (fid : Option Int) :
    updateFileTrashed (updateFileTrashed files v fid) v fid
      = updateFileTrashed files v fid := by
  unfold updateFileTrashed
  rw [List.map_map]
  apply List.map_congr_left
  intro f _
  by_cases h : fid == some ((f.id : Int))
  · simp only [Function.comp_apply, h, if_true]
  · have h' : ¬ fid = some ((f.id : Int)) := by simpa using h
    simp [h']

theorem find?_updateFileStarred (files : List FileRecord) (v : Bool) (i : Int) :
    List.find? (fun f => ((f.id : Int) == i)) (updateFileStarred files v (some i))
      = (List.find? (fun f => ((f.id : Int) == i)) files).map
          (fun f => if some i == some ((f.id : Int)) then { f with starred := v } else f) := by
  induction files with
  | nil => rfl
  | cons a l ih =>
      unfold updateFileStarred at ih ⊢
      by_cases h : ((a.id : Int) = i)
      · subst h
        simp [List.find?]
      · have h1 : (some i == some ((a.id : Int))) = false := by
          simp [Ne.symm h]
        have h2 : (((a.id : Int) == i)) = false := by simp [h]
        simp [List.find?, h1, h2] at ih ⊢
        exact ih

theorem find?_updateFileTrashed (files : List FileRecord) (v : Bool) (i : Int) :
    List.find? (fun f => ((f.id : Int) == i)) (updateFileTrashed files v (some i))
      = (List.find? (fun f => ((f.id : Int) == i)) files).map
          (fun f => if some i == some ((f.id : Int)) then { f with trashed := v } else f) := by
  induction files with
  | nil => rfl
  | cons a l ih =>
      unfold updateFileTrashed at ih ⊢
      by_cases h : ((a.id : Int) = i)
      · subst h
        simp [List.find?]
      · have h1 : (some i == some ((a.id : Int))) = false := by
          simp [Ne.symm h]
        have h2 : (((a.id : Int) == i)) = false := by simp [h]
        simp [List.find?, h1, h2] at ih ⊢
        exact ih

theorem updateFileStarred_noop (files : List FileRecord) (v : Bool) (fid : Option Int)
    (h : ∀ g ∈ files, fid = some ((g.id : Int)) → g.starred = v) :
    updateFileStarred files v fid = files := by
  unfold updateFileStarred
  have : ∀ g ∈ files, (if fid == some ((g.id : Int)) then { g with starred := v } else g) = g := by
    intro g hg
    by_cases hc : fid = some ((g.id : Int))
    · have hv := h g hg hc
      cases g
      simp_all
    · simp [hc]
  rw [List.map_congr_left this, List.map_id']

theorem updateFileTrashed_noop (files : List FileRecord) (v : Bool) (fid : Option Int)
    (h : ∀ g ∈ files, fid = some ((g.id : Int)) → g.trashed = v) :
    updateFileTrashed files v fid = files := by
  unfold updateFileTrashed
  have : ∀ g ∈ files, (if fid == some ((g.id : Int)) then { g with trashed := v } else g) = g := by
    intro g hg
    by_cases hc : fid = some ((g.id : Int))
    · have hv := h g hg hc
      cases g
      simp_all
    · simp [hc]
  rw [List.map_congr_left this, List.map_id']

theorem apiStar_found (st : ServerState) (idStr : String) (i : Int) (f : FileRecord)
    (hpi : parseIntJs idStr = some i) (hf : getFileById st (some i) = some f) :
    apiStar st idStr
      = (.ok200, { st with files := updateFileStarred st.files true (some i) }) := by
  unfold apiStar
  rw [hpi, hf]

theorem apiUnstar_found (st : ServerState) (idStr : String) (i : Int) (f : FileRecord)
    (hpi : parseIntJs idStr = some i) (hf : getFileById st (some i) = some f) :
    apiUnstar st idStr
      = (.ok200, { st with files := updateFileStarred st.files false (some i) }) := by
  unfold apiUnstar
  rw [hpi, hf]

theorem apiTrash_found (st : ServerState) (idStr : String) (i : Int) (f : FileRecord)
    (hpi : parseIntJs idStr = some i) (hf : getFileById st (some i) = some f) :
    apiTrash st idStr
      = (.ok200, { st with files := updateFileTrashed st.files true (some i) }) := by
  unfold apiTrash
  rw [hpi, hf]

theorem apiRestore_found (st : ServerState) (idStr : String) (i : Int) (f : FileRecord)
    (hpi : parseIntJs idStr = some i) (hf : getFileById st (some i) = some f) :
    apiRestore st idStr
      = (.ok200, { st with files := updateFileTrashed st.files false (some i) }) := by
  unfold apiRestore
  rw [hpi, hf]

theorem getFileById_updateFileStarred (st : ServerState) (i : Int) (v : Bool)
    (f : FileRecord) (hf : getFileById st (some i) = some f) :
    getFileById { st with files := updateFileStarred st.files v (some i) } (some i)
      = some (if some i == some ((f.id : Int)) then { f with starred := v } else f) := by
  have hffind : st.files.find? (fun g => ((g.id : Int) == i)) = some f := hf
  show (updateFileStarred st.files v (some i)).find? (fun g => ((g.id : Int) == i)) = _
  rw [find?_updateFileStarred, hffind]
  rfl

theorem getFileById_updateFileTrashed (st : ServerState) (i : Int) (v : Bool)
    (f : FileRecord) (hf : getFileById st (some i) = some f) :
    getFileById { st with files := updateFileTrashed st.files v (some i) } (some i)
      = some (if some i == some ((f.id : Int)) then { f with trashed := v } else f) := by
  have hffind : st.files.find? (fun g => ((g.id : Int) == i)) = some f := hf
  show (updateFileTrashed st.files v (some i)).find? (fun g => ((g.id : Int) == i)) = _
  rw [find?_updateFileTrashed, hffind]
  rfl

/-- C7: on an existing record, each flag operation (star, unstar, trash,
restore) applied twice gives the same metadata-store state and the same List
output as applied once, and applying it when the flag already has the target
value answers 200 and changes nothing. -/
theorem flag_ops_idempotent (st : ServerState) (idStr : String) (f : FileRecord)
    (hf : getFileById st (parseIntJs idStr) = some f) :
    ((apiStar ((apiStar st idStr).2) idStr).2 = (apiStar st idStr).2)
  ∧ ((apiUnstar ((apiUnstar st idStr).2) idStr).2 = (apiUnstar st idStr).2)
  ∧ ((apiTrash ((apiTrash st idStr).2) idStr).2 = (apiTrash st idStr).2)
  ∧ ((apiRestore ((apiRestore st idStr).2) idStr).2 = (apiRestore st idStr).2)
  ∧ (∀ pageQ limitQ,
        apiListFiles (apiStar ((apiStar st idStr).2) idStr).2 pageQ limitQ
          = apiListFiles (apiStar st idStr).2 pageQ limitQ)
  ∧ ((∀ g ∈ st.files, parseIntJs idStr = some ((g.id : Int)) → g.starred = true) →
        apiStar st idStr = (.ok200, st))
  ∧ ((∀ g ∈ st.files, parseIntJs idStr = some ((g.id : Int)) → g.starred = false) →
        apiUnstar st idStr = (.ok200, st))
  ∧ ((∀ g ∈ st.files, parseIntJs idStr = some ((g.id : Int)) → g.trashed = true) →
        apiTrash st idStr = (.ok200, st))
  ∧ ((∀ g ∈ st.files, parseIntJs idStr = some ((g.id : Int)) → g.trashed = false) →
        apiRestore st idStr = (.ok200, st)) := by
  rcases hpi : parseIntJs idStr with - | i
  · rw [hpi] at hf
    exact absurd hf (by simp [getFileById])
  rw [hpi] at hf
  have star2 : (apiStar ((apiStar st idStr).2) idStr).2 = (apiStar st idStr).2 := by
    rw [apiStar_found st idStr i f hpi hf]
    rw [apiStar_found _ idStr i _ hpi (getFileById_updateFileStarred st i true f hf)]
    show ServerState.mk _ _ _ = ServerState.mk _ _ _
    rw [updateFileStarred_idem]
  have unstar2 : (apiUnstar ((apiUnstar st idStr).2) idStr).2 = (apiUnstar st idStr).2 := by
    rw [apiUnstar_found st idStr i f hpi hf]
    rw [apiUnstar_found _ idStr i _ hpi (getFileById_updateFileStarred st i false f hf)]
    show ServerState.mk _ _ _ = ServerState.mk _ _ _
    rw [updateFileStarred_idem]
  have trash2 : (apiTrash ((apiTrash st idStr).2) idStr).2 = (apiTrash st idStr).2 := by
    rw [apiTrash_found st idStr i f hpi hf]
    rw [apiTrash_found _ idStr i _ hpi (getFileById_updateFileTrashed st i true f hf)]
    show ServerState.mk _ _ _ = ServerState.mk _ _ _
    rw [updateFileTrashed_idem]
  have restore2 : (apiRestore ((apiRestore st idStr).2) idStr).2 = (apiRestore st idStr).2 := by
    rw [apiRestore_found st idStr i f hpi hf]
    rw [apiRestore_found _ idStr i _ hpi (getFileById_updateFileTrashed st i false f hf)]
    show ServerState.mk _ _ _ = ServerState.mk _ _ _
    rw [updateFileTrashed_idem]
  refine ⟨star2, unstar2, trash2, restore2, fun pageQ limitQ => by rw [star2], ?_, ?_, ?_, ?_⟩
  · intro hv
    rw [apiStar_found st idStr i f hpi hf,
      updateFileStarred_noop st.files true (some i) (fun g hg hgi => hv g hg hgi)]
  · intro hv
    rw [apiUnstar_found st idStr i f hpi hf,
      updateFileStarred_noop st.files false (some i) (fun g hg hgi => hv g hg hgi)]
  · intro hv
    rw [apiTrash_found st idStr i f hpi hf,
      updateFileTrashed_noop st.files true (some i) (fun g hg hgi => hv g hg hgi)]
  · intro hv
    rw [apiRestore_found st idStr i f hpi hf,
      updateFileTrashed_noop st.files false (some i) (fun g hg hgi => hv g hg hgi)]

/-- Witness for C7: starring twice on a one-record state equals starring once. -/
theorem flag_ops_idempotent_witness :
    (apiStar ((apiStar
        { files := [{ id := 1, name := "a", size := 3, content_type := "text/plain",
                      s3_key := "files/5-a", starred := false, trashed := false,
                      created_at := 5 }],
          nextId := 2, blobs := ["files/5-a"] } "1").2) "1").2
      = (apiStar
          { files := [{ id := 1, name := "a", size := 3, content_type := "text/plain",
                        s3_key := "files/5-a", starred := false, trashed := false,
                        created_at := 5 }],
            nextId := 2, blobs := ["files/5-a"] } "1").2 :=
  (flag_ops_idempotent _ "1"
      { id := 1, name := "a", size := 3, content_type := "text/plain",
        s3_key := "files/5-a", starred := false, trashed := false, created_at := 5 }
      (by decide)).1

/-! ## C5: storage-key uniqueness -/

/-- The empty store right after `createTable`. -/
def initState : ServerState := { files := [], nextId := 1, blobs := [] }

/-- State after one successful upload of `"a"` at millisecond 5. -/
def stC5 : ServerState := (apiUpload initState 5 "a" "text/plain" 3 true).2

/-- C5 counterexample: a second upload of the same name in the same
millisecond generates a storage key equal to the existing record's key (the
key is not distinct from every existing one), and the request then fails on
the UNIQUE constraint. -/
theorem upload_key_collision_cex :
    (∃ f ∈ stC5.files, f.s3_key = s3KeyFor 5 "a")
    ∧ (apiUpload stC5 5 "a" "text/plain" 3 true).1 = .serverError := by decide

theorem apiUpload_files_fresh (st : ServerState) (now : Nat) (name mime : String)
    (size : Nat)
    (hany : st.files.any (fun f => f.s3_key == s3KeyFor now name) = false) :
    (apiUpload st now name mime size true).2.files
      = st.files ++
          [{ id := st.nextId, name := name, size := size, content_type := mime,
             s3_key := s3KeyFor now name, starred := false, trashed := false,
             created_at := now }] := by
  unfold apiUpload
  rw [hany]
  rfl

theorem apiUpload_files_dup (st : ServerState) (now : Nat) (name mime : String)
    (size : Nat)
    (hany : st.files.any (fun f => f.s3_key == s3KeyFor now name) = true) :
    (apiUpload st now name mime size true).2.files = st.files := by
  unfold apiUpload
  rw [hany]
  rfl

theorem updateFileStarred_pairwise_key (files : List FileRecord) (v : Bool)
    (fid : Option Int) (h : files.Pairwise (fun a b => a.s3_key ≠ b.s3_key)) :
    (updateFileStarred files v fid).Pairwise (fun a b => a.s3_key ≠ b.s3_key) := by
  unfold updateFileStarred
  rw [List.pairwise_map]
  refine h.imp ?_
  intro a b hab
  have ha : (if fid == some ((a.id : Int)) then { a with starred := v } else a).s3_key
      = a.s3_key := by split <;> rfl
  have hb : (if fid == some ((b.id : Int)) then { b with starred := v } else b).s3_key
      = b.s3_key := by split <;> rfl
  rw [ha, hb]
  exact hab

theorem updateFileTrashed_pairwise_key (files : List FileRecord) (v : Bool)
    (fid : Option Int) (h : files.Pairwise (fun a b => a.s3_key ≠ b.s3_key)) :
    (updateFileTrashed files v fid).Pairwise (fun a b => a.s3_key ≠ b.s3_key) := by
  unfold updateFileTrashed
  rw [List.pairwise_map]
  refine h.imp ?_
  intro a b hab
  have ha : (if fid == some ((a.id : Int)) then { a with trashed := v } else a).s3_key
      = a.s3_key := by split <;> rfl
  have hb : (if fid == some ((b.id : Int)) then { b with trashed := v } else b).s3_key
      = b.s3_key := by split <;> rfl
  rw [ha, hb]
  exact hab

/-- C5 (amended): whatever request is handled, if the rows' storage keys are
pairwise distinct before it, they are pairwise distinct after it — an upload
whose generated key collides with an existing row's key fails the UNIQUE
constraint and adds no row, so no two records ever share a storage key. -/
theorem s3_keys_pairwise_distinct (st : ServerState) (op : Op)
    (h : st.files.Pairwise (fun a b => a.s3_key ≠ b.s3_key)) :
    (step st op).files.Pairwise (fun a b => a.s3_key ≠ b.s3_key) := by
  cases op with
  | list pageQ limitQ => exact h
  | upload now name mime size s3ok =>
      show (apiUpload st now name mime size s3ok).2.files.Pairwise _
      cases s3ok with
      | false => exact h
      | true =>
          cases hany : st.files.any (fun f => f.s3_key == s3KeyFor now name) with
          | false =>
              rw [apiUpload_files_fresh st now name mime size hany, List.pairwise_append]
              refine ⟨h, List.pairwise_singleton _ _, ?_⟩
              intro a ha b hb
              rw [List.mem_singleton] at hb
              subst hb
              have h2 := (List.any_eq_false.mp hany) a ha
              simpa using h2
          | true =>
              rw [apiUpload_files_dup st now name mime size hany]
              exact h
  | download idStr signOk =>
      show (apiDownload st idStr signOk).2.files.Pairwise _
      unfold apiDownload
      rcases hm : getFileById st (parseIntJs idStr) with - | g
      · exact h
      · cases signOk <;> exact h
  | star idStr =>
      show (apiStar st idStr).2.files.Pairwise _
      unfold apiStar
      rcases hm : getFileById st (parseIntJs idStr) with - | g
      · exact h
      · exact updateFileStarred_pairwise_key _ _ _ h
  | unstar idStr =>
      show (apiUnstar st idStr).2.files.Pairwise _
      unfold apiUnstar
      rcases hm : getFileById st (parseIntJs idStr) with - | g
      · exact h
      · exact updateFileStarred_pairwise_key _ _ _ h
  | trash idStr =>
      show (apiTrash st idStr).2.files.Pairwise _
      unfold apiTrash
      rcases hm : getFileById st (parseIntJs idStr) with - | g
      · exact h
      · exact updateFileTrashed_pairwise_key _ _ _ h
  | restore idStr =>
      show (apiRestore st idStr).2.files.Pairwise _
      unfold apiRestore
      rcases hm : getFileById st (parseIntJs idStr) with - | g
      · exact h
      · exact updateFileTrashed_pairwise_key _ _ _ h
  | purge idStr s3ok =>
      show (apiDeleteFile st idStr s3ok).2.files.Pairwise _
      unfold apiDeleteFile
      rcases hm : getFileById st (parseIntJs idStr) with - | g
      · exact h
      · cases s3ok with
        | false => exact h
        | true => exact h.sublist (List.filter_sublist _)

/-- Witness for the amended C5 at a concrete state and request. -/
theorem s3_keys_pairwise_distinct_witness :
    (step stC5 (.upload 5 "a" "text/plain" 3 true)).files.Pairwise
      (fun a b => a.s3_key ≠ b.s3_key) :=
  s3_keys_pairwise_distinct stC5 (.upload 5 "a" "text/plain" 3 true) (by decide)

/-! ## C6: purge is terminal -/

/-- Scanning a list in consecutive `LIMIT L OFFSET k*L` chunks, for
`k = 0 .. ceil(length/L) - 1`, reassembles the list. -/
theorem join_chunks {α : Type} (L : Nat) (hL : 0 < L) (l : List α) :
    ((List.range ((l.length + L - 1) / L)).map
        (fun k => ((l.drop (k * L)).take L))).flatten = l := by
  rcases hl : l with - | ⟨a, t⟩
  · simp only [List.length_nil, Nat.zero_add]
    rw [Nat.div_eq_of_lt (Nat.sub_lt hL Nat.one_pos)]
    rfl
  · have htp : ((a :: t).length + L - 1) / L = t.length / L + 1 := by
      have he : (a :: t).length + L - 1 = t.length + L := by
        simp only [List.length_cons]
        omega
      rw [he, Nat.add_div_right _ hL]
    have ih := join_chunks L hL ((a :: t).drop L)
    have hm : (((a :: t).drop L).length + L - 1) / L = t.length / L := by
      rw [List.length_drop, List.length_cons]
      rcases Nat.le_total (t.length + 1) L with hle | hge
      · rw [Nat.sub_eq_zero_of_le hle, Nat.zero_add]
        rw [Nat.div_eq_of_lt (Nat.sub_lt hL Nat.one_pos),
          Nat.div_eq_of_lt (by omega : t.length < L)]
      · have he : t.length + 1 - L + L - 1 = t.length := by omega
        rw [he]
    rw [hm] at ih
    rw [htp, List.range_succ_eq_map, List.map_cons, List.flatten_cons, List.map_map]
    have hcomp : ∀ k ∈ List.range (t.length / L),
        ((fun k => (((a :: t).drop (k * L)).take L)) ∘ Nat.succ) k
          = ((((a :: t).drop L).drop (k * L)).take L) := by
      intro k hk
      simp only [Function.comp_apply]
      rw [List.drop_drop]
      have he : L + k * L = Nat.succ k * L := by
        rw [Nat.succ_mul]
        omega
      rw [he]
    rw [List.map_congr_left hcomp, ih, Nat.zero_mul, List.drop_zero,
      List.take_append_drop]
termination_by l.length
decreasing_by
  simp only [List.length_drop, hl, List.length_cons]
  omega

/-- With `1 ≤ L ≤ 100`, page `k+1` of List is exactly the `k`-th
`LIMIT/OFFSET` chunk of the descending scan. -/
theorem apiListFiles_files_chunk (st : ServerState) (L : Int)
    (h1 : 1 ≤ L) (h2 : L ≤ 100) (k : Nat) :
    (apiListFiles st (some ((k : Int) + 1)) (some L)).files
      = ((sortByCreatedAtDesc st.files).drop (k * L.toNat)).take L.toNat := by
  have hpne : ¬ ((k : Int) + 1 = 0) := by omega
  have hLne : ¬ (L = 0) := by omega
  have hmin : min L 100 = L := min_eq_left h2
  have hnonneg : ¬ (L < 0) := by omega
  show sqlTake (effLimit (some L))
      (sqlDrop ((effPage (some ((k : Int) + 1)) - 1) * effLimit (some L))
        (sortByCreatedAtDesc st.files)) = _
  have hLe : effLimit (some L) = L := by
    simp only [effLimit, hLne, if_false, hmin]
  have hpe : effPage (some ((k : Int) + 1)) = (k : Int) + 1 := by
    simp only [effPage, hpne, if_false]
  rw [hLe, hpe]
  have hoff : ((((k : Int) + 1) - 1) * L).toNat = k * L.toNat := by
    have heq : (((k : Int) + 1) - 1) * L = ((k * L.toNat : Nat) : Int) := by
      push_cast [Int.toNat_of_nonneg (by omega : (0 : Int) ≤ L)]
      ring
    rw [heq, Int.toNat_ofNat]
  unfold sqlTake sqlDrop
  rw [if_neg hnonneg, hoff]

/-- With `1 ≤ L ≤ 100`, `totalPages` is the ceiling-divided chunk count of
the descending scan. -/
theorem apiListFiles_totalPages (st : ServerState) (L : Int)
    (h1 : 1 ≤ L) (h2 : L ≤ 100) :
    ((apiListFiles st (some 1) (some L)).pagination.totalPages).toNat
      = ((sortByCreatedAtDesc st.files).length + L.toNat - 1) / L.toNat := by
  have hLne : ¬ (L = 0) := by omega
  have hmin : min L 100 = L := min_eq_left h2
  have hlen : (sortByCreatedAtDesc st.files).length = st.files.length :=
    (List.perm_insertionSort _ _).length_eq
  show (jsCeilDiv st.files.length (effLimit (some L))).toNat = _
  have hLe : effLimit (some L) = L := by
    simp only [effLimit, hLne, if_false, hmin]
  rw [hLe]
  unfold jsCeilDiv
  rw [if_pos (by omega : (0 : Int) < L), Int.toNat_ofNat, hlen]

/-- All pages of List under a fixed limit, pages `1` through `totalPages`. -/
def listAllPages (st : ServerState) (L : Int) : List (List FileRecord) :=
  (List.range ((apiListFiles st (some 1) (some L)).pagination.totalPages).toNat).map
    (fun (k : Nat) => (apiListFiles st (some ((k : Int) + 1)) (some L)).files)

theorem listAllPages_flatten (st : ServerState) (L : Int)
    (h1 : 1 ≤ L) (h2 : L ≤ 100) :
    (listAllPages st L).flatten = sortByCreatedAtDesc st.files := by
  have hLn : 0 < L.toNat := by omega
  unfold listAllPages
  rw [apiListFiles_totalPages st L h1 h2]
  rw [List.map_congr_left (fun k _ => apiListFiles_files_chunk st L h1 h2 k)]
  exact join_chunks L.toNat hLn (sortByCreatedAtDesc st.files)

/-! ## C4: pages partition the table in descending order -/

/-- C4: for every store and limit `1 ≤ L ≤ 100`, concatenating pages `1`
through `totalPages` yields exactly the stored records (a permutation; no
omissions, and no duplicates when the table rows are distinct), the
concatenation is ordered by `created_at` descending, and so is each page. -/
theorem pagination_partition (st : ServerState) (L : Int)
    (h1 : 1 ≤ L) (h2 : L ≤ 100) :
    (List.Perm (listAllPages st L).flatten st.files)
    ∧ ((listAllPages st L).flatten.Pairwise createdDesc)
    ∧ (∀ pg ∈ listAllPages st L, pg.Pairwise createdDesc)
    ∧ (st.files.Nodup → (listAllPages st L).flatten.Nodup) := by
  have hflat := listAllPages_flatten st L h1 h2
  have hperm : List.Perm (sortByCreatedAtDesc st.files) st.files :=
    List.perm_insertionSort createdDesc st.files
  have hsorted : (sortByCreatedAtDesc st.files).Pairwise createdDesc :=
    List.sorted_insertionSort createdDesc st.files
  refine ⟨?_, ?_, ?_, ?_⟩
  · rw [hflat]
    exact hperm
  · rw [hflat]
    exact hsorted
  · intro pg hpg
    unfold listAllPages at hpg
    rcases List.mem_map.mp hpg with ⟨k, hk, rfl⟩
    rw [apiListFiles_files_chunk st L h1 h2 k]
    exact List.Pairwise.sublist
      ((List.take_sublist _ _).trans (List.drop_sublist _ _)) hsorted
  · intro hnd
    rw [hflat]
    exact (hperm.nodup_iff).mpr hnd

/-- Witness for C4 on a one-record store with limit 1. -/
theorem pagination_partition_witness :
    List.Perm (listAllPages stC5 1).flatten stC5.files :=
  (pagination_partition stC5 1 (by decide) (by decide)).1

/-! ## C8: Upload response and Upload→List -/

/-- C8: a successful Upload answers the new row — server-assigned id (the
AUTOINCREMENT counter), the uploaded name, size and content type, flags
false, and the request timestamp — and that record appears on some page of a
subsequent List. -/
theorem upload_response_record (st : ServerState) (now : Nat) (name mime : String)
    (size : Nat) (s3ok : Bool) (r : FileRecord) (st2 : ServerState)
    (hp : apiUpload st now name mime size s3ok = (.created r, st2)) :
    r.id = st.nextId ∧ r.name = name ∧ r.size = size ∧ r.content_type = mime
    ∧ r.starred = false ∧ r.trashed = false ∧ r.created_at = now
    ∧ ∃ k : Nat, r ∈ (apiListFiles st2 (some ((k : Int) + 1)) (some 100)).files := by
  cases s3ok with
  | false =>
      exfalso
      unfold apiUpload at hp
      exact Resp.noConfusion (congrArg Prod.fst hp)
  | true =>
      cases hany : st.files.any (fun f => f.s3_key == s3KeyFor now name) with
      | true =>
          exfalso
          unfold apiUpload at hp
          rw [hany] at hp
          exact Resp.noConfusion (congrArg Prod.fst hp)
      | false =>
          unfold apiUpload at hp
          rw [hany] at hp
          injection hp with hfst hsnd
          injection hfst with hrec
          subst hrec
          subst hsnd
          refine ⟨rfl, rfl, rfl, rfl, rfl, rfl, rfl, ?_⟩
          have hmem :
              ({ id := st.nextId, name := name, size := size, content_type := mime,
                 s3_key := s3KeyFor now name, starred := false, trashed := false,
                 created_at := now } : FileRecord) ∈
                (st.files ++
                  [{ id := st.nextId, name := name, size := size, content_type := mime,
                     s3_key := s3KeyFor now name, starred := false, trashed := false,
                     created_at := now }]) :=
            List.mem_append.mpr (Or.inr (List.mem_singleton.mpr rfl))
          have hmem2 :
              ({ id := st.nextId, name := name, size := size, content_type := mime,
                 s3_key := s3KeyFor now name, starred := false, trashed := false,
                 created_at := now } : FileRecord) ∈
                (listAllPages
                  { st with
                    files := st.files ++
                      [{ id := st.nextId, name := name, size := size, content_type := mime,
                         s3_key := s3KeyFor now name, starred := false, trashed := false,
                         created_at := now }],
                    nextId := st.nextId + 1,
                    blobs := putBlob st.blobs (s3KeyFor now name) } 100).flatten := by
            rw [listAllPages_flatten _ 100 (by norm_num) (by norm_num)]
            unfold sortByCreatedAtDesc
            exact (List.mem_insertionSort createdDesc).mpr hmem
          obtain ⟨chunk, hchunk, hrmem⟩ := List.mem_flatten.mp hmem2
          unfold listAllPages at hchunk
          rcases List.mem_map.mp hchunk with ⟨k, hk, rfl⟩
          exact ⟨k, hrmem⟩

/-- Witness for C8: uploading into the empty store assigns id 1. -/
theorem upload_response_record_witness :
    ({ id := 1, name := "a", size := 3, content_type := "text/plain",
       s3_key := "files/5-a", starred := false, trashed := false,
       created_at := 5 } : FileRecord).id = initState.nextId :=
  (upload_response_record initState 5 "a" "text/plain" 3 true
      { id := 1, name := "a", size := 3, content_type := "text/plain",
        s3_key := "files/5-a", starred := false, trashed := false, created_at := 5 }
      stC5 (by decide)).1

/-! ## C3: List parameter handling and pagination arithmetic -/

/-- A bulk row for building large stores. -/
def mkRec (i : Nat) : FileRecord :=
  { id := i + 1, name := "f", size := 0, content_type := "text/plain",
    s3_key := "k", starred := false, trashed := false, created_at := 0 }

/-- A store holding 101 rows. -/
def stBig : ServerState :=
  { files := (List.range 101).map mkRec, nextId := 102, blobs := [] }

/-- C3 counterexample: `?limit=-1` passes `Math.min(-1, 100)` unchanged and
SQLite reads a negative LIMIT as “no limit”, so a single List response
returns all 101 rows — more than the 100 cap, so the response size is not
always bounded. -/
theorem list_limit_unbounded_cex :
    (apiListFiles stBig (some 1) (some (-1))).pagination.itemsPerPage = -1
    ∧ 100 < (apiListFiles stBig (some 1) (some (-1))).files.length := by decide

/-- C3 (amended): for a limit parameter that is absent or parses to a
nonnegative integer, the claim holds: the effective limit defaults to 20 and
is capped at 100 (so at most 100 rows are returned), the rows are the
`LIMIT/OFFSET` window at offset `(page-1)*limit`, `totalPages` is the least
page count covering all rows (the ceiling of `total/limit`),
`hasNext = page < totalPages`, `hasPrev = page > 1`, and an offset at or
beyond the row count yields an empty row set rather than an error.  (A
negative parsed limit escapes the cap — see the counterexample.) -/
theorem list_pagination_amended (st : ServerState) (pageQ limitQ : Option Int)
    (hq : ∀ n, limitQ = some n → 0 ≤ n) :
    (limitQ = none → (apiListFiles st pageQ limitQ).pagination.itemsPerPage = 20)
  ∧ 0 < (apiListFiles st pageQ limitQ).pagination.itemsPerPage
  ∧ (apiListFiles st pageQ limitQ).pagination.itemsPerPage ≤ 100
  ∧ (apiListFiles st pageQ limitQ).files.length ≤ 100
  ∧ (apiListFiles st pageQ limitQ).pagination.currentPage = effPage pageQ
  ∧ (apiListFiles st pageQ limitQ).pagination.itemsPerPage = effLimit limitQ
  ∧ (apiListFiles st pageQ limitQ).files
      = ((sortByCreatedAtDesc st.files).drop
          (((effPage pageQ - 1) * effLimit limitQ).toNat)).take ((effLimit limitQ).toNat)
  ∧ ((st.files.length : Int)
      ≤ effLimit limitQ * (apiListFiles st pageQ limitQ).pagination.totalPages)
  ∧ (effLimit limitQ * (apiListFiles st pageQ limitQ).pagination.totalPages
      < (st.files.length : Int) + effLimit limitQ)
  ∧ ((apiListFiles st pageQ limitQ).pagination.hasNext = true
      ↔ effPage pageQ < (apiListFiles st pageQ limitQ).pagination.totalPages)
  ∧ ((apiListFiles st pageQ limitQ).pagination.hasPrev = true ↔ 1 < effPage pageQ)
  ∧ ((st.files.length : Int) ≤ (effPage pageQ - 1) * effLimit limitQ
      → (apiListFiles st pageQ limitQ).files = []) := by
  have hL1 : 0 < effLimit limitQ := by
    cases limitQ with
    | none => norm_num [effLimit]
    | some n =>
        have hn := hq n rfl
        simp only [effLimit]
        by_cases h0 : n = 0
        · simp [h0]
        · rw [if_neg h0]
          exact lt_min (lt_of_le_of_ne hn (Ne.symm h0)) (by norm_num)
  have hL2 : effLimit limitQ ≤ 100 := by
    cases limitQ with
    | none => norm_num [effLimit]
    | some n =>
        simp only [effLimit]
        by_cases h0 : n = 0
        · simp [h0]
        · rw [if_neg h0]
          exact min_le_right _ _
  have hnotneg : ¬ (effLimit limitQ < 0) := by omega
  have hfiles : (apiListFiles st pageQ limitQ).files
      = ((sortByCreatedAtDesc st.files).drop
          (((effPage pageQ - 1) * effLimit limitQ).toNat)).take ((effLimit limitQ).toNat) := by
    show sqlTake (effLimit limitQ)
        (sqlDrop ((effPage pageQ - 1) * effLimit limitQ) (sortByCreatedAtDesc st.files)) = _
    unfold sqlTake sqlDrop
    rw [if_neg hnotneg]
  have htp : (apiListFiles st pageQ limitQ).pagination.totalPages
      = ((st.files.length + (effLimit limitQ).toNat - 1) / (effLimit limitQ).toNat : Nat) := by
    show jsCeilDiv st.files.length (effLimit limitQ) = _
    unfold jsCeilDiv
    rw [if_pos hL1]
  have hLn : 0 < (effLimit limitQ).toNat := by omega
  have hLcast : (((effLimit limitQ).toNat : Nat) : Int) = effLimit limitQ :=
    Int.toNat_of_nonneg (by omega)
  have hkey : ∀ t r : Nat,
      t + r = st.files.length + (effLimit limitQ).toNat - 1 →
      r < (effLimit limitQ).toNat →
      st.files.length ≤ t ∧ t < st.files.length + (effLimit limitQ).toNat := by
    intro t r ht hr
    omega
  have hceil := hkey _ _
    (Nat.div_add_mod (st.files.length + (effLimit limitQ).toNat - 1) (effLimit limitQ).toNat)
    (Nat.mod_lt _ hLn)
  refine ⟨?_, hL1, hL2, ?_, rfl, rfl, hfiles, ?_, ?_, ?_, ?_, ?_⟩
  · intro h
    subst h
    rfl
  · rw [hfiles]
    exact le_trans (List.length_take_le _ _) (by omega)
  · rw [htp, ← hLcast]
    exact_mod_cast hceil.1
  · rw [htp, ← hLcast]
    exact_mod_cast hceil.2
  · exact decide_eq_true_iff
  · exact decide_eq_true_iff
  · intro hbig
    rw [hfiles]
    have hlen : (sortByCreatedAtDesc st.files).length = st.files.length :=
      (List.perm_insertionSort createdDesc st.files).length_eq
    have hdrop : (sortByCreatedAtDesc st.files).drop
        (((effPage pageQ - 1) * effLimit limitQ).toNat) = [] := by
      rw [List.drop_eq_nil_iff, hlen]
      omega
    rw [hdrop, List.take_nil]

/-- Witness for the amended C3: default parameters on a one-record store. -/
theorem list_pagination_amended_witness :
    (apiListFiles stC5 none none).pagination.itemsPerPage = 20 :=
  (list_pagination_amended stC5 none none (fun _ h => Option.noConfusion h)).1 rfl

end DriveClone
